import Mathlib

/-!
Verification development for the LabelFlicks backend
(FastAPI video-annotation service: `main.py`, `model_training.py`,
`sql_app/{models,schemas,crud}.py`).

The record store is embedded as an explicit state (`DB`) holding the rows of
the five SQLAlchemy tables; UUIDs are modelled as naturals drawn from a
`next_id` counter (`gen_random_uuid()`), opaque byte blobs (pickled feature
tensors, images) as natural-number tokens, and rationals stand in for the
floating-point frame counts and rates reported by OpenCV.  Fallible Python
code (raised exceptions, failed commits) is embedded with `Except String`.
-/

namespace LabelFlicks

/-- Row of the `projects` table (`sql_app/models.py`, class `Project`). -/
structure ProjectRow where
  id : Nat
  name : String
deriving DecidableEq, Repr

/-- Row of the `videos` table.  `models.py`'s ORM `Video` omits the
`preprocessing_status` column, but `crud.set_video_preprocessing_status`,
the `schemas.Video`/`VideoResponse` response models, `main.py` and the test
suite all read and write it, so the embedded row carries it
(`none` = job never ran). -/
structure VideoRow where
  id : Nat
  name : String
  project_id : Nat
  preprocessing_status : Option String
deriving DecidableEq, Repr

/-- Row of the `frames` table (`models.py`, class `Frame`). -/
structure FrameRow where
  id : Nat
  human_reviewed : Bool
  width : Int
  height : Int
  frame_url : String
  project_id : Nat
  video_id : Nat
deriving DecidableEq, Repr

/-- Row of the `bounding_boxes` table.  The ORM class in `models.py` holds the
identity, geometry, frame and label columns; the pipeline additionally reads
and writes `image_features` (opaque pickled tensor) and `prediction`
(machine-authored vs. human-confirmed) on every box, as declared in
`schemas.BoundingBoxCreate` and used throughout `main.py`. -/
structure BoundingBoxRow where
  id : Nat
  x_top_left : Int
  y_top_left : Int
  x_bottom_right : Int
  y_bottom_right : Int
  width : Int
  height : Int
  frame_id : Nat
  label_id : Nat
  image_features : Nat
  prediction : Bool
deriving DecidableEq, Repr

/-- Row of the `labels` table (`models.py`, class `Label`).  Note that the
`name` column is declared `unique=True`, i.e. a global UNIQUE constraint on
`labels.name`, not a per-project one. -/
structure LabelRow where
  id : Nat
  name : String
  project_id : Nat
deriving DecidableEq, Repr

/-- The record store: one list of rows per table, plus the id generator. -/
structure DB where
  projects : List ProjectRow
  videos : List VideoRow
  frames : List FrameRow
  labels : List LabelRow
  boxes : List BoundingBoxRow
  next_id : Nat
deriving DecidableEq, Repr

/-! ### Pydantic request shapes (`sql_app/schemas.py`) -/

/-- The `schemas.LabelCreate`: name and owning project. -/
structure LabelCreate where
  name : String
  project_id : Nat
deriving DecidableEq, Repr

/-- The `schemas.FrameCreate`: `human_reviewed` defaults to `False`. -/
structure FrameCreate where
  width : Int
  height : Int
  project_id : Nat
  video_id : Nat
  frame_url : String
deriving DecidableEq, Repr

/-- The `schemas.BoundingBoxCreate` = `BoundingBoxBase` plus `image_features`.
The `"prediction": True` entry `main.py` passes to `parse_obj` is silently
dropped: the schema declares no such field. -/
structure BoundingBoxCreate where
  x_top_left : Int
  y_top_left : Int
  x_bottom_right : Int
  y_bottom_right : Int
  width : Int
  height : Int
  frame_id : Nat
  label_id : Nat
  image_features : Nat
deriving DecidableEq, Repr

/-- The `schemas.BoundingBox` = `BoundingBoxBase` plus `id`; it carries neither
`prediction` nor `image_features`, so a client submission can never change
those columns. -/
structure BoxUpdate where
  id : Nat
  x_top_left : Int
  y_top_left : Int
  x_bottom_right : Int
  y_bottom_right : Int
  width : Int
  height : Int
  frame_id : Nat
  label_id : Nat
deriving DecidableEq, Repr

/-! ### crud operations present in `sql_app/crud.py` -/

/-- The `crud.get_project_by_id`. -/
def get_project_by_id (db : DB) (project_id : Nat) : Option ProjectRow :=
  db.projects.find? (fun p => p.id = project_id)

/-- The `crud.get_video_by_id`. -/
def get_video_by_id (db : DB) (video_id : Nat) : Option VideoRow :=
  db.videos.find? (fun v => v.id = video_id)

/-- The `crud.set_video_preprocessing_status`: UPDATE videos SET
preprocessing_status = status WHERE id = video_id. -/
def set_video_preprocessing_status (db : DB) (video_id : Nat) (status : String) : DB :=
  { db with videos := db.videos.map (fun v =>
      if v.id = video_id then { v with preprocessing_status := some status } else v) }

/-- The `crud.get_label_by_name_and_project`. -/
def get_label_by_name_and_project (db : DB) (name : String) (project_id : Nat) :
    Option LabelRow :=
  db.labels.find? (fun l => l.name = name ∧ l.project_id = project_id)

/-- The `crud.insert_labels`: `add_all` of new `models.Label` rows followed by
`commit`.  `models.py` puts a global UNIQUE constraint on `labels.name`
(`Column('name', String, unique=True)`), so the commit raises
`IntegrityError` whenever any inserted name equals an existing label's name
(in any project) or another name in the same batch. -/
def insert_labels (db : DB) (labels : List LabelCreate) : Except String DB :=
  let clash := labels.any (fun lc => db.labels.any (fun l => l.name = lc.name))
      ∨ ¬ (labels.map (fun lc => lc.name)).Nodup
  if clash then
    .error "IntegrityError: UNIQUE constraint failed: labels.name"
  else
    .ok { db with
          labels := db.labels ++
            (labels.enum.map (fun p => ⟨db.next_id + p.1, p.2.name, p.2.project_id⟩)),
          next_id := db.next_id + labels.length }

/-- The `crud.insert_boxes` (`sql_app/crud.py:122`): the list comprehension reads
`for box in db_boxes`, i.e. it iterates over the very name being assigned.
That name is an unbound local when the iterable is evaluated, so the call
raises `UnboundLocalError` before it ever looks at the `boxes` argument; the
`some` branch below holds the unreachable rest of the function (which would
also drop `image_features` and `prediction`, neither copied by the
comprehension body). -/
def insert_boxes (db : DB) (boxes : List BoundingBoxCreate) : Except String DB :=
  match (none : Option (List BoundingBoxRow)) with
  | some db_boxes => .ok { db with boxes := db.boxes ++ db_boxes }
  | none => .error "UnboundLocalError: local variable db_boxes referenced before assignment"

/-! ### crud operations called by `main.py` but absent from `sql_app/crud.py` -/

/-- Modelled from the spec: `crud.insert_one_frame` is called at
`main.py:237/260` but missing from `src/sql_app/crud.py`.  Per §4.4 the
orchestrator "insert[s] Frame row" for each sampled frame (no failure mode is
listed for the record insert) and returns the new row, whose id the detection
stage then uses; `human_reviewed` defaults to false (§3). -/
def insert_one_frame (db : DB) (frame : FrameCreate) : DB × FrameRow :=
  let row : FrameRow :=
    ⟨db.next_id, false, frame.width, frame.height, frame.frame_url,
     frame.project_id, frame.video_id⟩
  ({ db with frames := db.frames ++ [row], next_id := db.next_id + 1 }, row)

/-- Modelled from the spec: `crud.get_labels_by_project` is called at
`main.py:121/411/969` but missing from `src/sql_app/crud.py`.  It returns the
project's label vocabulary — "the set of distinct label names registered for
a project" (glossary), i.e. the labels rows owned by the project. -/
def get_labels_by_project (db : DB) (project_id : Nat) : List LabelRow :=
  db.labels.filter (fun l => l.project_id = project_id)

/-- Modelled from the spec: `crud.update_boxes` is called at
`main.py:964/1018` but missing from `src/sql_app/crud.py`.  It is the Record
Store's update primitive (§6): each submitted `schemas.BoundingBox` replaces
the geometry, frame and label columns of the row with the matching id
(`prediction` and `image_features` are not in the schema, so those columns
keep their stored values); rows matching no submitted id are untouched; the
call reports success (`main.py` checks `dict(result) != {}`). -/
def update_boxes (db : DB) (updated : List BoxUpdate) : DB :=
  { db with boxes := db.boxes.map (fun b =>
      match updated.find? (fun u => u.id = b.id) with
      | some u =>
          { b with
            x_top_left := u.x_top_left, y_top_left := u.y_top_left,
            x_bottom_right := u.x_bottom_right, y_bottom_right := u.y_bottom_right,
            width := u.width, height := u.height,
            frame_id := u.frame_id, label_id := u.label_id }
      | none => b) }

/-- Modelled from the spec: `crud.get_box_vectors_and_labels_by_video_id` is
called at `main.py:975` but missing from `src/sql_app/crud.py`.  Per §4.5 it
yields, for one video, "the complete list of (feature vector, label name,
prediction flag) triples currently persisted": every bounding box attached to
one of the video's frames, joined with the name of its label. -/
def get_box_vectors_and_labels_by_video_id (db : DB) (video_id : Nat) :
    List (BoundingBoxRow × String) :=
  (db.boxes.filter (fun b =>
      db.frames.any (fun f => f.video_id = video_id ∧ f.id = b.frame_id))).filterMap
    (fun b => (db.labels.find? (fun l => l.id = b.label_id)).map (fun l => (b, l.name)))

/-! ### Utility functions in `main.py` -/

/-- The `reviewed` counting loop of `calculate_percent_frames_reviewed`
(`main.py:89-92`): walk the frames, incrementing for each `human_reviewed`. -/
def count_reviewed : List FrameRow → Nat
  | [] => 0
  | f :: rest => (if f.human_reviewed then 1 else 0) + count_reviewed rest

/-- Python's `round` to an integer: round half to even (banker's rounding). -/
def pyRoundHalfEven (q : ℚ) : ℤ :=
  if Int.fract q < 1 / 2 then ⌊q⌋
  else if 1 / 2 < Int.fract q then ⌊q⌋ + 1
  else if 2 ∣ ⌊q⌋ then ⌊q⌋ else ⌊q⌋ + 1

/-- Python's `round(x, 2)`. -/
def pyRound2 (q : ℚ) : ℚ := (pyRoundHalfEven (q * 100) : ℚ) / 100

/-- The `main.calculate_percent_frames_reviewed` on an object exposing `.frames`
(a project or a video): `0.0` for an empty frame list, otherwise
`round(100 * (reviewed / total), 2)`. -/
def calculate_percent_frames_reviewed (frames : List FrameRow) : ℚ :=
  let total := frames.length
  if total = 0 then 0
  else pyRound2 (100 * ((count_reviewed frames : ℚ) / (total : ℚ)))

/-! ### The frame sampler: `np.arange(0, num_frames, fps)` (`main.py:197`) -/

/-- One step of `np.arange`'s arithmetic progression: emit `x` while
`x < stop`, advancing by `step`; the fuel bounds the iteration count. -/
def arangeFrom (stop step : ℚ) : Nat → ℚ → List ℚ
  | 0, _ => []
  | fuel + 1, x => if x < stop then x :: arangeFrom stop step fuel (x + step) else []

/-- The `np.arange(0, stop, step)`: the values `0, step, 2*step, ...` in the
half-open interval `[0, stop)`.  The fuel `⌈stop/step⌉` is an upper bound on
the number of emitted values (proved exact below for `step > 0`). -/
def arangeQ (stop step : ℚ) : List ℚ :=
  arangeFrom stop step (⌈stop / step⌉.toNat) 0

/-! ### Python dict model (insertion-ordered, last value wins) -/

/-- One `d[k] = v` step of building a Python dict: overwrite the value if the
key is present, append the pair otherwise. -/
def pyDictInsert (m : List (String × Nat)) (k : String) (v : Nat) : List (String × Nat) :=
  if m.any (fun p => p.1 = k) then m.map (fun p => if p.1 = k then (k, v) else p)
  else m ++ [(k, v)]

/-- A Python dict comprehension over a list of pairs: keys keep first-insertion
order, a repeated key keeps its last value. -/
def pyDict (l : List (String × Nat)) : List (String × Nat) :=
  l.foldl (fun m p => pyDictInsert m p.1 p.2) []

/-- The `d[k]` as an `Option` (a `none` models Python's `KeyError` where used). -/
def pyDictGet (m : List (String × Nat)) (k : String) : Option Nat :=
  (m.find? (fun p => p.1 = k)).map (fun p => p.2)

/-! ### `np.unique` over label names (`main.py:105`): sorted distinct values -/

def insertSorted (s : String) : List String → List String
  | [] => [s]
  | x :: xs => if s ≤ x then s :: x :: xs else x :: insertSorted s xs

def sortStrings (l : List String) : List String := l.foldr insertSorted []

def dedupSortedStrings : List String → List String
  | [] => []
  | [x] => [x]
  | x :: y :: rest =>
      if x = y then dedupSortedStrings (y :: rest) else x :: dedupSortedStrings (y :: rest)

/-- The `np.unique` on a list of strings: sorted, duplicates removed. -/
def npUnique (l : List String) : List String := dedupSortedStrings (sortStrings l)

/-! ### Detection & feature stage (`main.predict_bounding_boxes`) -/

/-- One YOLO detection on a frame image, as unpacked at `main.py:129-145`:
a label name, the pixel rectangle, and the EfficientNet feature vector of the
cropped region (pickled bytes, kept opaque).  The detection and
feature-extraction models themselves are external pretrained networks, so a
frame's detection output is a parameter of the embedding. -/
structure Detection where
  label_name : String
  x_top_left : Int
  y_top_left : Int
  x_bottom_right : Int
  y_bottom_right : Int
  width : Int
  height : Int
  image_features : Nat
deriving DecidableEq, Repr

/-- The box-building loop of `main.predict_bounding_boxes` (lines 128-161):
each detection becomes a `BoundingBoxCreate` whose `label_id` is looked up in
`label_names_to_db_ids` (a missing key would raise `KeyError`).  The
`"prediction": True` entry is dropped by the schema. -/
def buildBoxCreates (label_ids : List (String × Nat)) (frame_id : Nat) :
    List Detection → Except String (List BoundingBoxCreate)
  | [] => .ok []
  | d :: rest =>
    match pyDictGet label_ids d.label_name with
    | none => .error "KeyError: label name missing from label_names_to_db_ids"
    | some lid =>
      match buildBoxCreates label_ids frame_id rest with
      | .error e => .error e
      | .ok bs =>
          .ok (⟨d.x_top_left, d.y_top_left, d.x_bottom_right, d.y_bottom_right,
                d.width, d.height, frame_id, lid, d.image_features⟩ :: bs)

/-- The `main.predict_bounding_boxes` (lines 96-165): dedupe the detected label
names, insert the ones new to the project (guarded per (name, project) by
`get_label_by_name_and_project`), rebuild the name→id mapping from the
project's labels, build one `BoundingBoxCreate` per detection, and hand them
to `crud.insert_boxes`. -/
def predict_bounding_boxes (detections : List Detection) (frame_id project_id : Nat)
    (db : DB) : Except String DB :=
  let label_names := npUnique (detections.map (fun d => d.label_name))
  let labels_to_insert :=
    (label_names.filter (fun n => get_label_by_name_and_project db n project_id = none)).map
      (fun n => LabelCreate.mk n project_id)
  match (if 0 < labels_to_insert.length then insert_labels db labels_to_insert
         else .ok db) with
  | .error e => .error e
  | .ok db1 =>
    let label_names_to_db_ids :=
      pyDict ((get_labels_by_project db1 project_id).map (fun l => (l.name, l.id)))
    match buildBoxCreates label_names_to_db_ids frame_id detections with
    | .error e => .error e
    | .ok boxes => insert_boxes db1 boxes

/-! ### The relabeling classifier (`model_training.py`) -/

/-- The `ClassifierManager` state that survives to `predict`: the ordered list of
unique label names; the trained network weights are abstracted (the logits it
computes are a parameter of `classifier_predict`). -/
structure ClassifierManager where
  unique_labels : List String
deriving DecidableEq, Repr

/-- The `ClassifierManager.__init__` (`model_training.py:66-78`):
`DetectionData.__init__` maps each box label through `label2idx` (a label
missing from `unique_labels` raises `KeyError`), then
`self.train_data[0][0]` unpickles `box_vectors[0]`, which raises `IndexError`
when no boxes exist.  There is no degenerate-training-set guard. -/
def classifier_manager_init (box_vectors : List Nat) (box_labels : List String)
    (unique_labels : List String) : Except String ClassifierManager :=
  if box_labels.any (fun l => ¬ unique_labels.contains l) then
    .error "KeyError: box label missing from label2idx"
  else if box_vectors.isEmpty then
    .error "IndexError: list index out of range"
  else
    .ok ⟨unique_labels⟩

/-- Index of the maximum of `score` over `0, ..., n-1` (first maximum wins):
`pred_probab.argmax(1)` of `model_training.py:111`; softmax is monotone, so
the argmax over class probabilities is the argmax over logits. -/
def argmaxIdx (score : Nat → ℚ) : Nat → Nat
  | 0 => 0
  | n + 1 =>
      let j := argmaxIdx score n
      if score j < score n then n else j

/-- The `ClassifierManager.predict` (`model_training.py:99-113`): for each input
feature vector, the label name `unique_labels[argmax]`.  `logits v c` is the
trained network's raw score for class `c` on feature vector `v`. -/
def classifier_predict (clf : ClassifierManager) (logits : Nat → Nat → ℚ)
    (inputs : List Nat) : List String :=
  inputs.map (fun v =>
    clf.unique_labels.getD (argmaxIdx (logits v) clf.unique_labels.length) "")

/-! ### The correction endpoint (`main.update_bounding_boxes`, POST /boundingboxes) -/

/-- The `for row in all_boxes` loop of `main.py:979-984`: collect every row's
feature vector and label name (no filter on `prediction`), and separately the
boxes whose `prediction` is still true. -/
def collect_box_rows :
    List (BoundingBoxRow × String) → List Nat × List String × List BoundingBoxRow
  | [] => ([], [], [])
  | (b, name) :: rest =>
      let acc := collect_box_rows rest
      (b.image_features :: acc.1, name :: acc.2.1,
       if b.prediction then b :: acc.2.2 else acc.2.2)

/-- The `box_vectors` as computed by the correction endpoint for a video. -/
def box_vectors_of (db : DB) (video_id : Nat) : List Nat :=
  (collect_box_rows (get_box_vectors_and_labels_by_video_id db video_id)).1

/-- The `box_labels` as computed by the correction endpoint for a video. -/
def box_labels_of (db : DB) (video_id : Nat) : List String :=
  (collect_box_rows (get_box_vectors_and_labels_by_video_id db video_id)).2.1

/-- The `unreviewed_boxes` as computed by the correction endpoint for a video. -/
def unreviewed_boxes_of (db : DB) (video_id : Nat) : List BoundingBoxRow :=
  (collect_box_rows (get_box_vectors_and_labels_by_video_id db video_id)).2.2

/-- The `zip(new_predictions, unreviewed_boxes)` loop of `main.py:999-1015`:
each unreviewed box keeps its geometry, frame and id, and gets
`label_id = label2id[updated_label]` (a missing key would raise `KeyError`;
the `"prediction": True` entry is dropped by `schemas.BoundingBox`). -/
def build_new_predicted_boxes (label2id : List (String × Nat)) :
    List (String × BoundingBoxRow) → Except String (List BoxUpdate)
  | [] => .ok []
  | (updated_label, box) :: rest =>
    match pyDictGet label2id updated_label with
    | none => .error "KeyError: updated label missing from label2id"
    | some lid =>
      match build_new_predicted_boxes label2id rest with
      | .error e => .error e
      | .ok bs =>
          .ok (⟨box.id, box.x_top_left, box.y_top_left, box.x_bottom_right,
                box.y_bottom_right, box.width, box.height, box.frame_id, lid⟩ :: bs)

/-- Outcome of the correction request: an HTTP response together with the
record-store state, and the box list the Relabeling Trainer wrote (empty when
it performed no persistence write); or an unhandled Python exception. -/
inductive HandlerResult where
  | response (status_code : Nat) (db : DB) (trainer_writes : List BoxUpdate)
  | pyError (msg : String) (db : DB)
deriving DecidableEq, Repr

/-- The record-store state when the request finishes (normally or not). -/
def HandlerResult.finalDb : HandlerResult → DB
  | .response _ db _ => db
  | .pyError _ db => db

/-- The boxes persisted by the Relabeling Trainer's re-prediction write. -/
def HandlerResult.trainerWrites : HandlerResult → List BoxUpdate
  | .response _ _ w => w
  | .pyError _ _ => []

/-- The Relabeling Trainer block of `main.update_bounding_boxes`
(lines 968-1023), run on the store `db1` in which the submitted corrections
are already persisted: build the project's name→id dict, train on every
box's (feature, label) pair, and if any of the video's boxes still have
`prediction == true`, re-predict and persist new labels for exactly those.
`logits` abstracts the freshly fit network. -/
def run_relabeling_trainer (logits : Nat → Nat → ℚ) (db1 : DB)
    (project_id video_id : Nat) : HandlerResult :=
  let label2id := pyDict ((get_labels_by_project db1 project_id).map (fun l => (l.name, l.id)))
  let unique_labels := label2id.map (fun p => p.1)
  match classifier_manager_init (box_vectors_of db1 video_id) (box_labels_of db1 video_id)
      unique_labels with
  | .error e => .pyError e db1
  | .ok model =>
    -- model.fit() trains the ephemeral classifier: no record-store effect
    if 0 < (unreviewed_boxes_of db1 video_id).length then
      let new_predictions :=
        classifier_predict model logits
          ((unreviewed_boxes_of db1 video_id).map (fun b => b.image_features))
      match build_new_predicted_boxes label2id
          (new_predictions.zip (unreviewed_boxes_of db1 video_id)) with
      | .error e => .pyError e db1
      | .ok new_predicted_boxes =>
          .response 200 (update_boxes db1 new_predicted_boxes) new_predicted_boxes
    else
      .response 200 db1 []

/-- The `main.update_bounding_boxes` (POST /boundingboxes, lines 922-1023):
validate project and video, persist the submitted corrections, then run the
Relabeling Trainer.  The string-UUID validation branches are outside the
model (ids are naturals here), and `update_boxes` always reports success, so
the `dict(result) != {}` branches do not fire. -/
def update_bounding_boxes (logits : Nat → Nat → ℚ) (db : DB)
    (project_id video_id : Nat) (updated_boxes : List BoxUpdate) : HandlerResult :=
  match get_project_by_id db project_id with
  | none => .response 404 db []
  | some _ =>
  match get_video_by_id db video_id with
  | none => .response 404 db []
  | some _ =>
      run_relabeling_trainer logits (update_boxes db updated_boxes) project_id video_id

/-! ### The preprocessing orchestrator (`main.preprocess_video`) -/

/-- The `storage_location` dict built by the upload and restart endpoints. -/
structure StorageLocation where
  azure : Bool
  path : String
  container : String
deriving DecidableEq, Repr

/-- The decoded video handle (`cv2.VideoCapture`): frame count, native rate,
rounded pixel dimensions, and the per-position read — `read pos` models
`vidcap.set(CAP_PROP_POS_FRAMES, pos); vidcap.read()`, with `none` for
`hasFrames == False` (decode failure). -/
structure VideoCapture where
  num_frames : ℚ
  fps : ℚ
  width : Int
  height : Int
  read : ℚ → Option Nat

/-- The orchestrator's per-frame collaborators: `imencode_ok` is
`cv2.imencode`'s success flag (azure branch), `upload_ok` the blob upload —
the source never checks it, so a `false` is a raised storage exception —
`imwrite_ok` is `cv2.imwrite`'s success flag (local branch), and `detect` is
the detection stage (`predict_bounding_boxes`) run on the freshly inserted
frame; an `error` from it propagates out of the job unhandled. -/
structure FrameEffects where
  imencode_ok : Nat → Bool
  upload_ok : Nat → Bool
  imwrite_ok : Nat → Bool
  detect : Nat → Nat → DB → Except String DB

/-- Outcome of a preprocessing run: the record-store state, the chronological
list of writes to the video's `preprocessing_status`, and the unhandled
exception, if one escaped the background task. -/
structure RunOut where
  db : DB
  status_writes : List String
  raised : Option String
deriving DecidableEq, Repr

/-- The `for frame in np.arange(0, num_frames, fps)` loop of
`main.preprocess_video` (lines 196-267): decode the sampled position, encode
and store the image, insert the Frame row, run the detection stage, and
continue; any checked failure sets status `failed` and returns. -/
def preprocess_frames (cap : VideoCapture) (fio : FrameEffects) (loc : StorageLocation)
    (video_id project_id : Nat) :
    List ℚ → Nat → DB → List String → RunOut
  | [], _, db, tr =>
      ⟨set_video_preprocessing_status db video_id "success", tr ++ ["success"], none⟩
  | pos :: rest, index, db, tr =>
    match cap.read pos with
    | none => ⟨set_video_preprocessing_status db video_id "failed", tr ++ ["failed"], none⟩
    | some image =>
      if loc.azure then
        if fio.imencode_ok image then
          if fio.upload_ok image then
            let ins := insert_one_frame db
              ⟨cap.width, cap.height, project_id, video_id,
               loc.path ++ "/" ++ toString index ++ ".jpg"⟩
            match fio.detect image ins.2.id ins.1 with
            | .error e => ⟨ins.1, tr, some e⟩
            | .ok db2 =>
                preprocess_frames cap fio loc video_id project_id rest (index + 1) db2 tr
          else ⟨db, tr, some "StorageError: blob upload failed"⟩
        else ⟨set_video_preprocessing_status db video_id "failed", tr ++ ["failed"], none⟩
      else
        if fio.imwrite_ok image then
          let ins := insert_one_frame db
            ⟨cap.width, cap.height, project_id, video_id,
             loc.path ++ "/" ++ toString index ++ ".jpg"⟩
          match fio.detect image ins.2.id ins.1 with
          | .error e => ⟨ins.1, tr, some e⟩
          | .ok db2 =>
              preprocess_frames cap fio loc video_id project_id rest (index + 1) db2 tr
        else ⟨set_video_preprocessing_status db video_id "failed", tr ++ ["failed"], none⟩

/-- The `main.preprocess_video` (lines 172-270): set status `in_progress`, sample
one position per playback second via `np.arange(0, num_frames, fps)`, and run
the per-frame loop. -/
def preprocess_video (cap : VideoCapture) (fio : FrameEffects) (loc : StorageLocation)
    (video_id project_id : Nat) (db : DB) : RunOut :=
  let db0 := set_video_preprocessing_status db video_id "in_progress"
  preprocess_frames cap fio loc video_id project_id
    (arangeQ cap.num_frames cap.fps) 0 db0 ["in_progress"]

/-! ### The restart endpoint (`main.restart_video_preprocess`) -/

/-- Outcome of GET /videos/{id}/preprocess at request time: the HTTP status,
the record-store state, and whether a preprocessing background task was
queued (`background_tasks.add_task` runs only after the response). -/
structure RestartOut where
  status_code : Nat
  db : DB
  scheduled : Bool
deriving DecidableEq, Repr

/-- The `main.restart_video_preprocess` (lines 687-771): 404 for an unknown
video; respond 200 without re-running when the video's status is already
`success`; otherwise fetch the stored video bytes (`fetch_ok` abstracts the
local-file read or blob download; a failure is the 500 branch) and queue
`preprocess_video` as a background task, responding 202. -/
def restart_video_preprocess (db : DB) (video_id : Nat) (fetch_ok : Bool) : RestartOut :=
  match get_video_by_id db video_id with
  | none => ⟨404, db, false⟩
  | some video =>
    if video.preprocessing_status = some "success" then ⟨200, db, false⟩
    else if fetch_ok then ⟨202, db, true⟩
    else ⟨500, db, false⟩

/-- Decidable equality for fallible results over the store (used only to let
concrete evaluations go through `decide`). -/
instance : DecidableEq (Except String DB) := fun a b =>
  match a, b with
  | .ok x, .ok y =>
      if h : x = y then isTrue (by rw [h]) else isFalse (by simp [h])
  | .error x, .error y =>
      if h : x = y then isTrue (by rw [h]) else isFalse (by simp [h])
  | .ok _, .error _ => isFalse (by simp)
  | .error _, .ok _ => isFalse (by simp)

/-! ### Per-frame outcome predicates for the orchestrator -/

/-- All checked and unchecked operations of one loop iteration succeed. -/
def FrameStepOk (cap : VideoCapture) (fio : FrameEffects) (loc : StorageLocation)
    (pos : ℚ) : Prop :=
  ∃ img, cap.read pos = some img ∧
    (loc.azure = true → fio.imencode_ok img = true ∧ fio.upload_ok img = true) ∧
    (loc.azure = false → fio.imwrite_ok img = true)

/-- A failure the source checks at this position: the decode (`hasFrames`
false), the azure-branch image encode, or the local-branch `cv2.imwrite`
(encode plus file write). -/
def CheckedFailureAt (cap : VideoCapture) (fio : FrameEffects) (loc : StorageLocation)
    (pos : ℚ) : Prop :=
  cap.read pos = none ∨
    ∃ img, cap.read pos = some img ∧
      ((loc.azure = true ∧ fio.imencode_ok img = false) ∨
       (loc.azure = false ∧ fio.imwrite_ok img = false))

/-- A storage failure the source does not check: the azure blob upload raises
after a successful decode and encode. -/
def UploadFailureAt (cap : VideoCapture) (fio : FrameEffects) (loc : StorageLocation)
    (pos : ℚ) : Prop :=
  loc.azure = true ∧
    ∃ img, cap.read pos = some img ∧
      fio.imencode_ok img = true ∧ fio.upload_ok img = false

/-- The detection stage collaborator succeeds and only appends rows to the
labels and boxes tables (it never touches projects, videos or frames and
never deletes). -/
def DetectOnlyAppends (fio : FrameEffects) : Prop :=
  ∀ img fid (d : DB), ∃ labs boxs n,
    fio.detect img fid d =
      .ok { d with labels := d.labels ++ labs, boxes := d.boxes ++ boxs, next_id := n }

/-! ### Concrete inputs used by witnesses and counterexamples -/

/-- A video whose preprocessing already succeeded. -/
def doneVideo : VideoRow := ⟨1, "demo.mp4", 1, some "success"⟩

/-- Store with one project and one successfully preprocessed video. -/
def doneDB : DB := ⟨[⟨1, "alpha"⟩], [doneVideo], [], [], [], 2⟩

/-- A store with the label "person" registered for project 1 (only). -/
def personDB : DB :=
  ⟨[⟨1, "alpha"⟩, ⟨2, "beta"⟩], [], [], [⟨10, "person", 1⟩], [], 11⟩

/-- One YOLO detection of a person. -/
def personDetection : Detection := ⟨"person", 0, 0, 10, 10, 10, 10, 42⟩

/-- A box create corresponding to `personDetection` on frame 5. -/
def personBoxCreate : BoundingBoxCreate := ⟨0, 0, 10, 10, 10, 10, 5, 10, 42⟩

/-- Project 1, video 1, frame 5, the label "person", and no bounding boxes. -/
def zeroBoxDB : DB :=
  ⟨[⟨1, "alpha"⟩], [⟨1, "demo.mp4", 1, some "success"⟩],
   [⟨5, false, 100, 100, "demo/frames/0.jpg", 1, 1⟩], [⟨10, "person", 1⟩], [], 11⟩

/-- A machine-predicted box on frame 5 labelled "person". -/
def predictedPersonBox : BoundingBoxRow := ⟨100, 0, 0, 10, 10, 10, 10, 5, 10, 42, true⟩

/-- The `zeroBoxDB` plus a single predicted box: one label class, one box. -/
def oneClassDB : DB :=
  { zeroBoxDB with boxes := [predictedPersonBox], next_id := 101 }

/-- A human-confirmed box on frame 5 labelled "person". -/
def reviewedPersonBox : BoundingBoxRow := ⟨101, 1, 1, 9, 9, 8, 8, 5, 10, 43, false⟩

/-- Two-label project with one predicted and one human-confirmed box. -/
def mixedDB : DB :=
  { zeroBoxDB with
    labels := [⟨10, "person", 1⟩, ⟨11, "car", 1⟩],
    boxes := [predictedPersonBox, reviewedPersonBox], next_id := 102 }

/-- A trained-network oracle that always prefers class index 1. -/
def preferClassOne : Nat → Nat → ℚ := fun _ c => if c = 1 then 1 else 0

/-- A trained-network oracle that always scores zero. -/
def zeroLogits : Nat → Nat → ℚ := fun _ _ => 0

/-- A one-second, one-frame-per-second azure-mode capture whose blob upload
fails on the first sampled frame. -/
def uploadFailCap : VideoCapture := ⟨1, 1, 10, 10, fun _ => some 0⟩

def uploadFailEffects : FrameEffects :=
  ⟨fun _ => true, fun _ => false, fun _ => true, fun _ _ d => .ok d⟩

def azureLoc : StorageLocation := ⟨true, "demo/frames", "alpha"⟩

def localLoc : StorageLocation := ⟨false, "demo/frames", ""⟩

/-- A fresh store with one project and one never-preprocessed video. -/
def freshDB : DB := ⟨[⟨1, "alpha"⟩], [⟨1, "demo.mp4", 1, none⟩], [], [], [], 2⟩

/-- A one-second capture whose decode fails immediately. -/
def decodeFailCap : VideoCapture := ⟨1, 1, 10, 10, fun _ => none⟩

/-- A two-second, one-frame-per-second capture that always decodes. -/
def happyCap : VideoCapture := ⟨2, 1, 10, 10, fun _ => some 0⟩

/-- Collaborators for a fully successful local-mode run: every operation
succeeds and the detection stage inserts nothing. -/
def happyEffects : FrameEffects :=
  ⟨fun _ => true, fun _ => true, fun _ => true, fun _ _ d => .ok d⟩

/-- A frame a human has reviewed. -/
def reviewedFrame : FrameRow := ⟨0, true, 100, 100, "demo/frames/0.jpg", 1, 1⟩

/-- A frame nobody has reviewed. -/
def unreviewedFrame : FrameRow := ⟨1, false, 100, 100, "demo/frames/1.jpg", 1, 1⟩

/-! ## Theorems -/

theorem arangeFrom_eq_map_range (stop step : ℚ) (hstep : 0 < step) :
    ∀ (fuel : Nat) (x : ℚ), ⌈(stop - x) / step⌉.toNat ≤ fuel →
      arangeFrom stop step fuel x =
        (List.range ⌈(stop - x) / step⌉.toNat).map (fun (i : Nat) => x + (i : ℚ) * step) := by
  intro fuel
  induction fuel with
  | zero =>
      intro x hx
      have h0 : ⌈(stop - x) / step⌉.toNat = 0 := Nat.le_zero.mp hx
      have hlt : ¬ x < stop := by
        intro hxs
        have hq : 0 < (stop - x) / step := div_pos (by linarith) hstep
        have hpos : 0 < ⌈(stop - x) / step⌉ := Int.ceil_pos.mpr hq
        omega
      simp [arangeFrom, hlt, h0]
  | succ n ih =>
      intro x hx
      by_cases hlt : x < stop
      · have hq : 0 < (stop - x) / step := div_pos (by linarith) hstep
        have hpos : 0 < ⌈(stop - x) / step⌉ := Int.ceil_pos.mpr hq
        have hshift : (stop - (x + step)) / step = (stop - x) / step - 1 := by
          field_simp
          ring
        have hceil : ⌈(stop - (x + step)) / step⌉ = ⌈(stop - x) / step⌉ - 1 := by
          rw [hshift, show (1 : ℚ) = ((1 : ℤ) : ℚ) by norm_num, Int.ceil_sub_int]
        have hK : ⌈(stop - x) / step⌉.toNat = ⌈(stop - (x + step)) / step⌉.toNat + 1 := by
          omega
        have hK' : ⌈(stop - (x + step)) / step⌉.toNat ≤ n := by omega
        simp only [arangeFrom, if_pos hlt]
        rw [ih (x + step) hK', hK, List.range_succ_eq_map]
        simp only [List.map_cons, List.map_map]
        congr 1
        · norm_num
        · apply List.map_congr_left
          intro i _
          simp only [Function.comp_apply]
          push_cast
          ring
      · have hle : stop - x ≤ 0 := by linarith
        have hc : ⌈(stop - x) / step⌉ ≤ 0 := by
          apply Int.ceil_le.mpr
          push_cast
          exact div_nonpos_of_nonpos_of_nonneg hle (le_of_lt hstep)
        have h0 : ⌈(stop - x) / step⌉.toNat = 0 := Int.toNat_of_nonpos hc
        simp [arangeFrom, hlt, h0]

/-- The sampled positions are exactly `0, fps, 2*fps, ...` below `num_frames`. -/
theorem arangeQ_eq_map_range (stop step : ℚ) (hstep : 0 < step) :
    arangeQ stop step =
      (List.range ⌈stop / step⌉.toNat).map (fun (i : Nat) => (i : ℚ) * step) := by
  unfold arangeQ
  rw [arangeFrom_eq_map_range stop step hstep _ 0 (le_of_eq (by rw [sub_zero]))]
  rw [sub_zero]
  apply List.map_congr_left
  intro i _
  rw [zero_add]

theorem arangeQ_length (stop step : ℚ) (hstep : 0 < step) :
    (arangeQ stop step).length = ⌈stop / step⌉.toNat := by
  rw [arangeQ_eq_map_range stop step hstep, List.length_map, List.length_range]

theorem arangeQ_pairwise_lt (stop step : ℚ) (hstep : 0 < step) :
    (arangeQ stop step).Pairwise (· < ·) := by
  rw [arangeQ_eq_map_range stop step hstep, List.pairwise_map]
  refine (List.pairwise_lt_range _).imp ?_
  intro a b hab
  have hq : (a : ℚ) < (b : ℚ) := by exact_mod_cast hab
  exact mul_lt_mul_of_pos_right hq hstep

/-- C3 (amended): for every video with `num_frames` frames at positive
native rate `fps`, the preprocessing sampler `np.arange(0, num_frames, fps)`
emits exactly `⌈num_frames / fps⌉` sampled positions — one per *started*
second of playback, which equals `⌊duration⌋` exactly when `fps` divides
`num_frames` — and the sampled source positions are strictly increasing. -/
theorem sampler_emits_ceil_strictly_increasing (num_frames fps : ℚ) (hfps : 0 < fps) :
    (arangeQ num_frames fps).length = ⌈num_frames / fps⌉.toNat ∧
      (arangeQ num_frames fps).Pairwise (· < ·) :=
  ⟨arangeQ_length _ _ hfps, arangeQ_pairwise_lt _ _ hfps⟩

/-- C3 witness: a 65-frame video at 30 fps yields `⌈65/30⌉ = 3` strictly
increasing sampled positions. -/
theorem sampler_emits_ceil_strictly_increasing_witness :
    (0 : ℚ) < 30 ∧ (arangeQ 65 30).length = ⌈(65 : ℚ) / 30⌉.toNat ∧
      (arangeQ 65 30).Pairwise (· < ·) :=
  ⟨by norm_num,
   (sampler_emits_ceil_strictly_increasing 65 30 (by norm_num)).1,
   (sampler_emits_ceil_strictly_increasing 65 30 (by norm_num)).2⟩

/-- C3 counterexample to the claim as stated: a 65-frame video at 30 fps
has playback duration `D = 65/30 ≈ 2.17` seconds, so `⌊D⌋ = 2`, but the
sampler emits the 3 positions 0, 30, 60 — not `⌊D⌋` frames. -/
theorem sampler_count_is_not_floor :
    arangeQ 65 30 = [0, 30, 60] ∧ ⌊(65 : ℚ) / 30⌋.toNat = 2 ∧
      (arangeQ 65 30).length ≠ ⌊(65 : ℚ) / 30⌋.toNat := by
  have hceil : ⌈(65 : ℚ) / 30⌉ = 3 := by
    rw [Int.ceil_eq_iff]
    constructor <;> norm_num
  have hfloor : ⌊(65 : ℚ) / 30⌋ = 2 := by
    rw [Int.floor_eq_iff]
    constructor <;> norm_num
  have harr : arangeQ 65 30 = [0, 30, 60] := by
    rw [arangeQ, hceil]
    norm_num [arangeFrom]
  refine ⟨harr, by rw [hfloor]; rfl, ?_⟩
  rw [harr, hfloor]
  decide

/-! ### C10: totality and bounds of `calculate_percent_frames_reviewed` -/

theorem count_reviewed_eq_length_filter (frames : List FrameRow) :
    count_reviewed frames = (frames.filter (fun f => f.human_reviewed)).length := by
  induction frames with
  | nil => rfl
  | cons f rest ih =>
      cases hf : f.human_reviewed
      · simp [count_reviewed, List.filter_cons, hf, ih]
      · simp [count_reviewed, List.filter_cons, hf, ih]
        omega

theorem pyRoundHalfEven_ge_floor (q : ℚ) : ⌊q⌋ ≤ pyRoundHalfEven q := by
  unfold pyRoundHalfEven
  split_ifs <;> omega

theorem pyRoundHalfEven_le_ceil (q : ℚ) : pyRoundHalfEven q ≤ ⌈q⌉ := by
  have hfr : Int.fract q = q - ⌊q⌋ := rfl
  have hstep : 0 < Int.fract q → ⌊q⌋ + 1 ≤ ⌈q⌉ := by
    intro h0
    have hlt : (⌊q⌋ : ℚ) < q := by linarith
    have : ⌊q⌋ < ⌈q⌉ := by exact_mod_cast lt_of_lt_of_le hlt (Int.le_ceil q)
    omega
  unfold pyRoundHalfEven
  split_ifs with h1 h2 h3
  · exact Int.floor_le_ceil q
  · exact hstep (by linarith)
  · exact Int.floor_le_ceil q
  · have h2' : Int.fract q = 1 / 2 := by linarith
    exact hstep (by rw [h2']; norm_num)

theorem pyRound2_bounds (q : ℚ) (h0 : 0 ≤ q) (h1 : q ≤ 100) :
    0 ≤ pyRound2 q ∧ pyRound2 q ≤ 100 := by
  unfold pyRound2
  have hf : (0 : ℤ) ≤ ⌊q * 100⌋ := Int.floor_nonneg.mpr (by positivity)
  have hc : ⌈q * 100⌉ ≤ (10000 : ℤ) := by
    apply Int.ceil_le.mpr
    push_cast
    linarith
  have hlo : (0 : ℤ) ≤ pyRoundHalfEven (q * 100) :=
    le_trans hf (pyRoundHalfEven_ge_floor _)
  have hhi : pyRoundHalfEven (q * 100) ≤ 10000 :=
    le_trans (pyRoundHalfEven_le_ceil _) hc
  constructor
  · apply div_nonneg _ (by norm_num)
    exact_mod_cast hlo
  · rw [div_le_iff₀ (by norm_num)]
    calc (pyRoundHalfEven (q * 100) : ℚ) ≤ (10000 : ℤ) := by exact_mod_cast hhi
      _ = 100 * 100 := by norm_num

/-- C10: `calculate_percent_frames_reviewed` is total: with zero frames it
returns 0.0 without dividing, with `n > 0` frames it returns
`100 * reviewed / n` rounded to two decimal places, and the result always
lies between 0.0 and 100.0 inclusive. -/
theorem percent_frames_reviewed_total_bounded (frames : List FrameRow) :
    (frames.length = 0 → calculate_percent_frames_reviewed frames = 0) ∧
    (0 < frames.length →
      calculate_percent_frames_reviewed frames =
        pyRound2 (100 * ((count_reviewed frames : ℚ) / (frames.length : ℚ)))) ∧
    0 ≤ calculate_percent_frames_reviewed frames ∧
    calculate_percent_frames_reviewed frames ≤ 100 := by
  by_cases hz : frames.length = 0
  · refine ⟨fun _ => by simp [calculate_percent_frames_reviewed, hz], ?_, ?_, ?_⟩
    · intro hpos
      omega
    · simp [calculate_percent_frames_reviewed, hz]
    · simp [calculate_percent_frames_reviewed, hz]
  · have heq : calculate_percent_frames_reviewed frames =
        pyRound2 (100 * ((count_reviewed frames : ℚ) / (frames.length : ℚ))) := by
      simp [calculate_percent_frames_reviewed, hz]
    have hr0 : (0 : ℚ) ≤ (count_reviewed frames : ℚ) := by positivity
    have hn0 : (0 : ℚ) < (frames.length : ℚ) := by
      exact_mod_cast Nat.pos_of_ne_zero hz
    have hrn : (count_reviewed frames : ℚ) ≤ (frames.length : ℚ) := by
      have : count_reviewed frames ≤ frames.length := by
        rw [count_reviewed_eq_length_filter]
        exact List.length_filter_le _ _
      exact_mod_cast this
    have hq0 : 0 ≤ 100 * ((count_reviewed frames : ℚ) / (frames.length : ℚ)) := by
      positivity
    have hq1 : 100 * ((count_reviewed frames : ℚ) / (frames.length : ℚ)) ≤ 100 := by
      have hd : (count_reviewed frames : ℚ) / (frames.length : ℚ) ≤ 1 :=
        (div_le_one hn0).mpr hrn
      linarith
    obtain ⟨hlo, hhi⟩ := pyRound2_bounds _ hq0 hq1
    exact ⟨fun h => absurd h hz, fun _ => heq, by rw [heq]; exact hlo, by rw [heq]; exact hhi⟩

/-- C10 witness: one reviewed and one unreviewed frame give 50.0, within
bounds. -/
theorem percent_frames_reviewed_witness :
    calculate_percent_frames_reviewed [reviewedFrame, unreviewedFrame] =
        pyRound2 (100 * ((count_reviewed [reviewedFrame, unreviewedFrame] : ℚ) /
          (([reviewedFrame, unreviewedFrame] : List FrameRow).length : ℚ))) ∧
      0 ≤ calculate_percent_frames_reviewed [reviewedFrame, unreviewedFrame] ∧
      calculate_percent_frames_reviewed [reviewedFrame, unreviewedFrame] ≤ 100 := by
  obtain ⟨h0, hpos, hlo, hhi⟩ :=
    percent_frames_reviewed_total_bounded [reviewedFrame, unreviewedFrame]
  exact ⟨hpos (by decide), hlo, hhi⟩

/-! ### C7: restarting a successfully preprocessed video is a no-op -/

/-- C7: invoking the preprocessing restart endpoint for a video whose
status is `success` answers 200 without queuing a background job and leaves
the record store — in particular its frame and box counts — unchanged. -/
theorem restart_success_is_noop (db : DB) (video_id : Nat) (fetch_ok : Bool)
    (v : VideoRow) (hv : get_video_by_id db video_id = some v)
    (hs : v.preprocessing_status = some "success") :
    restart_video_preprocess db video_id fetch_ok = ⟨200, db, false⟩ ∧
      (restart_video_preprocess db video_id fetch_ok).db.frames.length =
        db.frames.length ∧
      (restart_video_preprocess db video_id fetch_ok).db.boxes.length =
        db.boxes.length := by
  have h1 : restart_video_preprocess db video_id fetch_ok = ⟨200, db, false⟩ := by
    unfold restart_video_preprocess
    rw [hv]
    simp [hs]
  exact ⟨h1, by rw [h1], by rw [h1]⟩

/-- C7 witness. -/
theorem restart_success_is_noop_witness :
    restart_video_preprocess doneDB 1 true = ⟨200, doneDB, false⟩ :=
  (restart_success_is_noop doneDB 1 true doneVideo (by decide) (by decide)).1

/-! ### C9: `crud.insert_boxes` can never persist a row -/

/-- C9: for every nonempty list of boxes, `crud.insert_boxes` raises
`UnboundLocalError` (its comprehension iterates over `db_boxes` before that
name is bound), so no bounding-box row is ever persisted through it, and the
detection stage's box-insertion step (`predict_bounding_boxes`) fails on
every frame with at least one detected box. -/
theorem insert_boxes_always_raises :
    (∀ (db : DB) (boxes : List BoundingBoxCreate), boxes ≠ [] →
        insert_boxes db boxes =
          .error "UnboundLocalError: local variable db_boxes referenced before assignment") ∧
      ∀ (detections : List Detection) (frame_id project_id : Nat) (db : DB),
        detections ≠ [] →
          ∃ e, predict_bounding_boxes detections frame_id project_id db = .error e := by
  constructor
  · intro db boxes _
    rfl
  · intro dets fid pid db _
    unfold predict_bounding_boxes
    dsimp only
    split
    · exact ⟨_, rfl⟩
    · split
      · exact ⟨_, rfl⟩
      · exact ⟨_, rfl⟩

/-- C9 witness: a single person detection on frame 5 of project 1. -/
theorem insert_boxes_always_raises_witness :
    insert_boxes personDB [personBoxCreate] =
        .error "UnboundLocalError: local variable db_boxes referenced before assignment" ∧
      ∃ e, predict_bounding_boxes [personDetection] 5 1 personDB = .error e :=
  ⟨insert_boxes_always_raises.1 personDB [personBoxCreate] (by decide),
   insert_boxes_always_raises.2 [personDetection] 5 1 personDB (by decide)⟩

/-! ### C5: label names are globally unique in the schema, not per project -/

/-- C5 (code evaluation at the failing input): `models.py` declares the
`labels.name` column `unique=True` — a global UNIQUE constraint.  "person" is
not registered for project 2, so the application-level vocabulary guard
passes, but the insert of ("person", project 2) violates the constraint
because project 1 already owns that name: the commit errors and one row
remains instead of one per project, and the detection stage's label-insertion
step for project 2 raises instead of creating the second row. -/
theorem label_unique_globally_not_per_project :
    get_label_by_name_and_project personDB "person" 2 = none ∧
      insert_labels personDB [⟨"person", 2⟩] =
        .error "IntegrityError: UNIQUE constraint failed: labels.name" ∧
      predict_bounding_boxes [personDetection] 5 2 personDB =
        .error "IntegrityError: UNIQUE constraint failed: labels.name" := by
  decide

/-! ### C4: no degenerate-training-set guard in the correction endpoint -/

/-- C4 (code evaluation at the failing input): a correction submission
for a video with zero persisted boxes is not a no-op — the
`ClassifierManager` constructor indexes `train_data[0]`, raising `IndexError`
and failing the enclosing request — and with one label class and one box the
Trainer does not skip either: it trains and re-predicts anyway (one
persistence write). -/
theorem degenerate_training_set_not_noop :
    update_bounding_boxes zeroLogits zeroBoxDB 1 1 [] =
        .pyError "IndexError: list index out of range" zeroBoxDB ∧
      (update_bounding_boxes zeroLogits oneClassDB 1 1 []).trainerWrites =
        [⟨100, 0, 0, 10, 10, 10, 10, 5, 10⟩] := by
  decide

/-! ### C6: the training set ignores the prediction flag -/

theorem collect_box_rows_vectors (rows : List (BoundingBoxRow × String)) :
    (collect_box_rows rows).1 = rows.map (fun r => r.1.image_features) := by
  induction rows with
  | nil => rfl
  | cons r rest ih =>
      obtain ⟨b, name⟩ := r
      simp [collect_box_rows, ih]

theorem collect_box_rows_labels (rows : List (BoundingBoxRow × String)) :
    (collect_box_rows rows).2.1 = rows.map (fun r => r.2) := by
  induction rows with
  | nil => rfl
  | cons r rest ih =>
      obtain ⟨b, name⟩ := r
      simp [collect_box_rows, ih]

theorem collect_box_rows_unreviewed (rows : List (BoundingBoxRow × String)) :
    (collect_box_rows rows).2.2 =
      (rows.map (fun r => r.1)).filter (fun b => b.prediction) := by
  induction rows with
  | nil => rfl
  | cons r rest ih =>
      obtain ⟨b, name⟩ := r
      cases hb : b.prediction <;>
        simp [collect_box_rows, List.filter_cons, hb, ih]

/-- C6: the correction endpoint builds the Trainer's training examples
from the (feature vector, label name) pairs of every persisted bounding box
of the video — the `box_vectors`/`box_labels` it passes to
`ClassifierManager` are the per-row projections of the full box–label join,
with no filter on the `prediction` flag, so human-confirmed and
machine-predicted boxes alike contribute an example. -/
theorem training_set_ignores_prediction_flag (db : DB) (video_id : Nat) :
    box_vectors_of db video_id =
        (get_box_vectors_and_labels_by_video_id db video_id).map
          (fun r => r.1.image_features) ∧
      box_labels_of db video_id =
        (get_box_vectors_and_labels_by_video_id db video_id).map (fun r => r.2) ∧
      ∀ r ∈ get_box_vectors_and_labels_by_video_id db video_id,
        r.1.image_features ∈ box_vectors_of db video_id ∧
          r.2 ∈ box_labels_of db video_id := by
  refine ⟨collect_box_rows_vectors _, collect_box_rows_labels _, ?_⟩
  intro r hr
  constructor
  · unfold box_vectors_of
    rw [collect_box_rows_vectors]
    exact List.mem_map_of_mem _ hr
  · unfold box_labels_of
    rw [collect_box_rows_labels]
    exact List.mem_map_of_mem _ hr

/-! ### Orchestrator lemmas -/

theorem set_video_preprocessing_status_mem (db : DB) (video_id : Nat) (s : String) :
    ∀ v ∈ (set_video_preprocessing_status db video_id s).videos,
      v.id = video_id → v.preprocessing_status = some s := by
  intro v hv hid
  simp only [set_video_preprocessing_status, List.mem_map] at hv
  obtain ⟨w, _, hweq⟩ := hv
  by_cases h : w.id = video_id
  · rw [if_pos h] at hweq
    rw [← hweq]
  · rw [if_neg h] at hweq
    rw [← hweq] at hid
    exact absurd hid h

/-- Every run's status-write trace extends the trace accumulated so far. -/
theorem preprocess_frames_status_extends (cap : VideoCapture) (fio : FrameEffects)
    (loc : StorageLocation) (video_id project_id : Nat) :
    ∀ (ps : List ℚ) (idx : Nat) (db : DB) (tr : List String),
      ∃ t, (preprocess_frames cap fio loc video_id project_id ps idx db tr).status_writes =
        tr ++ t := by
  intro ps
  induction ps with
  | nil =>
      intro idx db tr
      exact ⟨["success"], rfl⟩
  | cons p rest ih =>
      intro idx db tr
      cases hread : cap.read p with
      | none =>
          refine ⟨["failed"], ?_⟩
          simp [preprocess_frames, hread]
      | some img =>
          cases haz : loc.azure with
          | true =>
              cases henc : fio.imencode_ok img with
              | false =>
                  refine ⟨["failed"], ?_⟩
                  simp [preprocess_frames, hread, haz, henc]
              | true =>
                  cases hup : fio.upload_ok img with
                  | false =>
                      refine ⟨[], ?_⟩
                      simp [preprocess_frames, hread, haz, henc, hup]
                  | true =>
                      cases hdet : fio.detect img
                          (insert_one_frame db
                            ⟨cap.width, cap.height, project_id, video_id,
                             loc.path ++ "/" ++ toString idx ++ ".jpg"⟩).2.id
                          (insert_one_frame db
                            ⟨cap.width, cap.height, project_id, video_id,
                             loc.path ++ "/" ++ toString idx ++ ".jpg"⟩).1 with
                      | error e =>
                          refine ⟨[], ?_⟩
                          simp [preprocess_frames, hread, haz, henc, hup, hdet]
                      | ok db2 =>
                          obtain ⟨t, ht⟩ := ih (idx + 1) db2 tr
                          refine ⟨t, ?_⟩
                          simpa [preprocess_frames, hread, haz, henc, hup, hdet] using ht
          | false =>
              cases hw : fio.imwrite_ok img with
              | false =>
                  refine ⟨["failed"], ?_⟩
                  simp [preprocess_frames, hread, haz, hw]
              | true =>
                  cases hdet : fio.detect img
                      (insert_one_frame db
                        ⟨cap.width, cap.height, project_id, video_id,
                         loc.path ++ "/" ++ toString idx ++ ".jpg"⟩).2.id
                      (insert_one_frame db
                        ⟨cap.width, cap.height, project_id, video_id,
                         loc.path ++ "/" ++ toString idx ++ ".jpg"⟩).1 with
                  | error e =>
                      refine ⟨[], ?_⟩
                      simp [preprocess_frames, hread, haz, hw, hdet]
                  | ok db2 =>
                      obtain ⟨t, ht⟩ := ih (idx + 1) db2 tr
                      refine ⟨t, ?_⟩
                      simpa [preprocess_frames, hread, haz, hw, hdet] using ht

/-- A run whose every sampled frame fully succeeds ends by writing `success`,
adds exactly one frame row per sampled position, and only appends boxes. -/
theorem preprocess_frames_all_ok (cap : VideoCapture) (fio : FrameEffects)
    (loc : StorageLocation) (video_id project_id : Nat)
    (hdet : DetectOnlyAppends fio) :
    ∀ (ps : List ℚ) (idx : Nat) (db : DB) (tr : List String),
      (∀ pos ∈ ps, FrameStepOk cap fio loc pos) →
      ∃ db2, preprocess_frames cap fio loc video_id project_id ps idx db tr =
          ⟨set_video_preprocessing_status db2 video_id "success",
           tr ++ ["success"], none⟩ ∧
        db2.videos = db.videos ∧
        (∃ fs, db2.frames = db.frames ++ fs ∧ fs.length = ps.length) ∧
        (∃ bs, db2.boxes = db.boxes ++ bs) := by
  intro ps
  induction ps with
  | nil =>
      intro idx db tr _
      exact ⟨db, rfl, rfl, ⟨[], by simp⟩, ⟨[], by simp⟩⟩
  | cons p rest ih =>
      intro idx db tr hok
      obtain ⟨img, hread, hencup, hwrt⟩ := hok p (List.mem_cons_self _ _)
      have hrest : ∀ pos ∈ rest, FrameStepOk cap fio loc pos :=
        fun pos hpos => hok pos (List.mem_cons_of_mem _ hpos)
      cases haz : loc.azure with
      | true =>
          obtain ⟨henc, hup⟩ := hencup haz
          obtain ⟨labs, boxs, n, hd⟩ := hdet img
            (insert_one_frame db
              ⟨cap.width, cap.height, project_id, video_id,
               loc.path ++ "/" ++ toString idx ++ ".jpg"⟩).2.id
            (insert_one_frame db
              ⟨cap.width, cap.height, project_id, video_id,
               loc.path ++ "/" ++ toString idx ++ ".jpg"⟩).1
          obtain ⟨db2, heq, hvids, ⟨fs, hf, hflen⟩, ⟨bs, hb⟩⟩ := ih (idx + 1) _ tr hrest
          refine ⟨db2, ?_, ?_, ?_, ?_⟩
          · simp only [preprocess_frames, hread, haz, henc, hup, hd, if_true]
            exact heq
          · rw [hvids]
            rfl
          · refine ⟨(insert_one_frame db
              ⟨cap.width, cap.height, project_id, video_id,
               loc.path ++ "/" ++ toString idx ++ ".jpg"⟩).2 :: fs, ?_, ?_⟩
            · rw [hf]
              simp [insert_one_frame]
            · simp [hflen]
          · refine ⟨boxs ++ bs, ?_⟩
            rw [hb]
            simp [insert_one_frame]
      | false =>
          have hw := hwrt haz
          obtain ⟨labs, boxs, n, hd⟩ := hdet img
            (insert_one_frame db
              ⟨cap.width, cap.height, project_id, video_id,
               loc.path ++ "/" ++ toString idx ++ ".jpg"⟩).2.id
            (insert_one_frame db
              ⟨cap.width, cap.height, project_id, video_id,
               loc.path ++ "/" ++ toString idx ++ ".jpg"⟩).1
          obtain ⟨db2, heq, hvids, ⟨fs, hf, hflen⟩, ⟨bs, hb⟩⟩ := ih (idx + 1) _ tr hrest
          refine ⟨db2, ?_, ?_, ?_, ?_⟩
          · simp only [preprocess_frames, hread, haz, hw, hd, if_true]
            exact heq
          · rw [hvids]
            rfl
          · refine ⟨(insert_one_frame db
              ⟨cap.width, cap.height, project_id, video_id,
               loc.path ++ "/" ++ toString idx ++ ".jpg"⟩).2 :: fs, ?_, ?_⟩
            · rw [hf]
              simp [insert_one_frame]
            · simp [hflen]
          · refine ⟨boxs ++ bs, ?_⟩
            rw [hb]
            simp [insert_one_frame]

/-- A run whose first `k` sampled frames fully succeed and whose `k`-th frame
fails: a checked failure (decode, azure encode, local write) ends the run
with a `failed` status write; an unchecked azure upload failure ends it with
an escaped exception and no further status write.  Either way exactly the
earlier iterations' rows remain. -/
theorem preprocess_frames_fail_at (cap : VideoCapture) (fio : FrameEffects)
    (loc : StorageLocation) (video_id project_id : Nat)
    (hdet : DetectOnlyAppends fio) :
    ∀ (ps : List ℚ) (k idx : Nat) (db : DB) (tr : List String),
      k < ps.length →
      (∀ j, j < k → FrameStepOk cap fio loc (ps.getD j 0)) →
      (CheckedFailureAt cap fio loc (ps.getD k 0) →
        ∃ db2, preprocess_frames cap fio loc video_id project_id ps idx db tr =
            ⟨set_video_preprocessing_status db2 video_id "failed",
             tr ++ ["failed"], none⟩ ∧
          db2.videos = db.videos ∧
          (∃ fs, db2.frames = db.frames ++ fs ∧ fs.length = k) ∧
          (∃ bs, db2.boxes = db.boxes ++ bs)) ∧
      (UploadFailureAt cap fio loc (ps.getD k 0) →
        ∃ db2, preprocess_frames cap fio loc video_id project_id ps idx db tr =
            ⟨db2, tr, some "StorageError: blob upload failed"⟩ ∧
          db2.videos = db.videos ∧
          (∃ fs, db2.frames = db.frames ++ fs ∧ fs.length = k) ∧
          (∃ bs, db2.boxes = db.boxes ++ bs)) := by
  intro ps
  induction ps with
  | nil =>
      intro k idx db tr hk
      exact absurd hk (by simp)
  | cons p rest ih =>
      intro k idx db tr hk hpre
      cases k with
      | zero =>
          constructor
          · intro hfail
            have hfail' : CheckedFailureAt cap fio loc p := by simpa using hfail
            rcases hfail' with hnone | ⟨img, hread, hcase⟩
            · refine ⟨db, ?_, rfl, ⟨[], by simp⟩, ⟨[], by simp⟩⟩
              simp [preprocess_frames, hnone]
            · rcases hcase with ⟨haz, henc⟩ | ⟨haz, hw⟩
              · refine ⟨db, ?_, rfl, ⟨[], by simp⟩, ⟨[], by simp⟩⟩
                simp [preprocess_frames, hread, haz, henc]
              · refine ⟨db, ?_, rfl, ⟨[], by simp⟩, ⟨[], by simp⟩⟩
                simp [preprocess_frames, hread, haz, hw]
          · intro hfail
            have hfail' : UploadFailureAt cap fio loc p := by simpa using hfail
            obtain ⟨haz, img, hread, henc, hup⟩ := hfail'
            refine ⟨db, ?_, rfl, ⟨[], by simp⟩, ⟨[], by simp⟩⟩
            simp [preprocess_frames, hread, haz, henc, hup]
      | succ j =>
          have hstep : FrameStepOk cap fio loc p := by
            simpa using hpre 0 (Nat.succ_pos j)
          obtain ⟨img, hread, hencup, hwrt⟩ := hstep
          have hk' : j < rest.length := by simpa using hk
          have hpre' : ∀ i, i < j → FrameStepOk cap fio loc (rest.getD i 0) := by
            intro i hi
            simpa using hpre (i + 1) (by omega)
          cases haz : loc.azure with
          | true =>
              obtain ⟨henc, hup⟩ := hencup haz
              obtain ⟨labs, boxs, n, hd⟩ := hdet img
                (insert_one_frame db
                  ⟨cap.width, cap.height, project_id, video_id,
                   loc.path ++ "/" ++ toString idx ++ ".jpg"⟩).2.id
                (insert_one_frame db
                  ⟨cap.width, cap.height, project_id, video_id,
                   loc.path ++ "/" ++ toString idx ++ ".jpg"⟩).1
              constructor
              · intro hfail
                have hfail' : CheckedFailureAt cap fio loc (rest.getD j 0) := by
                  simpa using hfail
                obtain ⟨db2, heq, hvids, ⟨fs, hf, hflen⟩, ⟨bs, hb⟩⟩ :=
                  (ih j (idx + 1) _ tr hk' hpre').1 hfail'
                refine ⟨db2, ?_, ?_, ?_, ?_⟩
                · simp only [preprocess_frames, hread, haz, henc, hup, hd, if_true]
                  exact heq
                · rw [hvids]
                  rfl
                · refine ⟨(insert_one_frame db
                    ⟨cap.width, cap.height, project_id, video_id,
                     loc.path ++ "/" ++ toString idx ++ ".jpg"⟩).2 :: fs, ?_, ?_⟩
                  · rw [hf]
                    simp [insert_one_frame]
                  · simp [hflen]
                · refine ⟨boxs ++ bs, ?_⟩
                  rw [hb]
                  simp [insert_one_frame]
              · intro hfail
                have hfail' : UploadFailureAt cap fio loc (rest.getD j 0) := by
                  simpa using hfail
                obtain ⟨db2, heq, hvids, ⟨fs, hf, hflen⟩, ⟨bs, hb⟩⟩ :=
                  (ih j (idx + 1) _ tr hk' hpre').2 hfail'
                refine ⟨db2, ?_, ?_, ?_, ?_⟩
                · simp only [preprocess_frames, hread, haz, henc, hup, hd, if_true]
                  exact heq
                · rw [hvids]
                  rfl
                · refine ⟨(insert_one_frame db
                    ⟨cap.width, cap.height, project_id, video_id,
                     loc.path ++ "/" ++ toString idx ++ ".jpg"⟩).2 :: fs, ?_, ?_⟩
                  · rw [hf]
                    simp [insert_one_frame]
                  · simp [hflen]
                · refine ⟨boxs ++ bs, ?_⟩
                  rw [hb]
                  simp [insert_one_frame]
          | false =>
              have hw := hwrt haz
              obtain ⟨labs, boxs, n, hd⟩ := hdet img
                (insert_one_frame db
                  ⟨cap.width, cap.height, project_id, video_id,
                   loc.path ++ "/" ++ toString idx ++ ".jpg"⟩).2.id
                (insert_one_frame db
                  ⟨cap.width, cap.height, project_id, video_id,
                   loc.path ++ "/" ++ toString idx ++ ".jpg"⟩).1
              constructor
              · intro hfail
                have hfail' : CheckedFailureAt cap fio loc (rest.getD j 0) := by
                  simpa using hfail
                obtain ⟨db2, heq, hvids, ⟨fs, hf, hflen⟩, ⟨bs, hb⟩⟩ :=
                  (ih j (idx + 1) _ tr hk' hpre').1 hfail'
                refine ⟨db2, ?_, ?_, ?_, ?_⟩
                · simp only [preprocess_frames, hread, haz, hw, hd, if_true]
                  exact heq
                · rw [hvids]
                  rfl
                · refine ⟨(insert_one_frame db
                    ⟨cap.width, cap.height, project_id, video_id,
                     loc.path ++ "/" ++ toString idx ++ ".jpg"⟩).2 :: fs, ?_, ?_⟩
                  · rw [hf]
                    simp [insert_one_frame]
                  · simp [hflen]
                · refine ⟨boxs ++ bs, ?_⟩
                  rw [hb]
                  simp [insert_one_frame]
              · intro hfail
                have hfail' : UploadFailureAt cap fio loc (rest.getD j 0) := by
                  simpa using hfail
                obtain ⟨db2, heq, hvids, ⟨fs, hf, hflen⟩, ⟨bs, hb⟩⟩ :=
                  (ih j (idx + 1) _ tr hk' hpre').2 hfail'
                refine ⟨db2, ?_, ?_, ?_, ?_⟩
                · simp only [preprocess_frames, hread, haz, hw, hd, if_true]
                  exact heq
                · rw [hvids]
                  rfl
                · refine ⟨(insert_one_frame db
                    ⟨cap.width, cap.height, project_id, video_id,
                     loc.path ++ "/" ++ toString idx ++ ".jpg"⟩).2 :: fs, ?_, ?_⟩
                  · rw [hf]
                    simp [insert_one_frame]
                  · simp [hflen]
                · refine ⟨boxs ++ bs, ?_⟩
                  rw [hb]
                  simp [insert_one_frame]

/-- C2 (amended): if the first `k` sampled frames succeed and frame `k`
hits a decode, azure-encode, or local-write failure, the run sets the status
to `failed`, processes no further frames, and leaves exactly the `k` earlier
frames (and their boxes) in place; if instead the azure blob upload fails at
frame `k`, the run still stops with exactly `k` frames persisted, but via an
unhandled exception that leaves the status `in_progress` rather than
`failed`. -/
theorem preprocess_failure_semantics
    (cap : VideoCapture) (fio : FrameEffects) (loc : StorageLocation)
    (video_id project_id : Nat) (db : DB) (k : Nat)
    (hdet : DetectOnlyAppends fio)
    (hk : k < (arangeQ cap.num_frames cap.fps).length)
    (hpre : ∀ j, j < k →
      FrameStepOk cap fio loc ((arangeQ cap.num_frames cap.fps).getD j 0)) :
    (CheckedFailureAt cap fio loc ((arangeQ cap.num_frames cap.fps).getD k 0) →
      (preprocess_video cap fio loc video_id project_id db).status_writes =
          ["in_progress", "failed"] ∧
        (preprocess_video cap fio loc video_id project_id db).raised = none ∧
        (∃ fs, (preprocess_video cap fio loc video_id project_id db).db.frames =
            db.frames ++ fs ∧ fs.length = k) ∧
        (∃ bs, (preprocess_video cap fio loc video_id project_id db).db.boxes =
            db.boxes ++ bs) ∧
        ∀ v ∈ (preprocess_video cap fio loc video_id project_id db).db.videos,
          v.id = video_id → v.preprocessing_status = some "failed") ∧
    (UploadFailureAt cap fio loc ((arangeQ cap.num_frames cap.fps).getD k 0) →
      (preprocess_video cap fio loc video_id project_id db).status_writes =
          ["in_progress"] ∧
        (preprocess_video cap fio loc video_id project_id db).raised =
          some "StorageError: blob upload failed" ∧
        (∃ fs, (preprocess_video cap fio loc video_id project_id db).db.frames =
            db.frames ++ fs ∧ fs.length = k) ∧
        (∃ bs, (preprocess_video cap fio loc video_id project_id db).db.boxes =
            db.boxes ++ bs) ∧
        ∀ v ∈ (preprocess_video cap fio loc video_id project_id db).db.videos,
          v.id = video_id → v.preprocessing_status = some "in_progress") := by
  obtain ⟨hA, hB⟩ := preprocess_frames_fail_at cap fio loc video_id project_id hdet
    (arangeQ cap.num_frames cap.fps) k 0
    (set_video_preprocessing_status db video_id "in_progress") ["in_progress"] hk hpre
  constructor
  · intro hfail
    obtain ⟨db2, heq, hvids, ⟨fs, hf, hflen⟩, ⟨bs, hb⟩⟩ := hA hfail
    unfold preprocess_video
    rw [heq]
    refine ⟨rfl, rfl, ⟨fs, hf, hflen⟩, ⟨bs, hb⟩, ?_⟩
    exact set_video_preprocessing_status_mem db2 video_id "failed"
  · intro hfail
    obtain ⟨db2, heq, hvids, ⟨fs, hf, hflen⟩, ⟨bs, hb⟩⟩ := hB hfail
    unfold preprocess_video
    rw [heq]
    refine ⟨rfl, rfl, ⟨fs, hf, hflen⟩, ⟨bs, hb⟩, ?_⟩
    intro v hv hid
    rw [hvids] at hv
    exact set_video_preprocessing_status_mem db video_id "in_progress" v hv hid

/-- C2 witness: a decode failure at the first sampled frame yields the
`failed` write; an azure upload failure at the first sampled frame escapes as
an exception. -/
theorem preprocess_failure_semantics_witness :
    (preprocess_video decodeFailCap happyEffects localLoc 1 1 freshDB).status_writes =
        ["in_progress", "failed"] ∧
      (preprocess_video uploadFailCap uploadFailEffects azureLoc 1 1 freshDB).raised =
        some "StorageError: blob upload failed" := by
  have hone : ⌈(1 : ℚ) / 1⌉ = 1 := by
    rw [Int.ceil_eq_iff]
    constructor <;> norm_num
  have hdet1 : DetectOnlyAppends happyEffects :=
    fun img fid d => ⟨[], [], d.next_id, by simp; rfl⟩
  have hdet2 : DetectOnlyAppends uploadFailEffects :=
    fun img fid d => ⟨[], [], d.next_id, by simp; rfl⟩
  constructor
  · have hlen : (arangeQ decodeFailCap.num_frames decodeFailCap.fps).length = 1 := by
      show (arangeQ 1 1).length = 1
      rw [arangeQ_length 1 1 (by norm_num), hone]
      rfl
    obtain ⟨hA, _⟩ := preprocess_failure_semantics decodeFailCap happyEffects localLoc
      1 1 freshDB 0 hdet1 (by rw [hlen]; norm_num) (fun j hj => absurd hj (Nat.not_lt_zero j))
    exact (hA (Or.inl rfl)).1
  · have hlen : (arangeQ uploadFailCap.num_frames uploadFailCap.fps).length = 1 := by
      show (arangeQ 1 1).length = 1
      rw [arangeQ_length 1 1 (by norm_num), hone]
      rfl
    obtain ⟨_, hB⟩ := preprocess_failure_semantics uploadFailCap uploadFailEffects azureLoc
      1 1 freshDB 0 hdet2 (by rw [hlen]; norm_num) (fun j hj => absurd hj (Nat.not_lt_zero j))
    exact (hB ⟨rfl, 0, rfl, rfl, rfl⟩).2.1

/-- C2 counterexample to the claim as stated: in azure mode a storage
write (blob upload) failure at sampled frame 0 does not set the status to
`failed` — the job dies with an unhandled exception and the status stays
`in_progress`. -/
theorem upload_failure_leaves_in_progress :
    azureLoc.azure = true ∧
      uploadFailCap.read 0 = some 0 ∧
      uploadFailEffects.imencode_ok 0 = true ∧
      uploadFailEffects.upload_ok 0 = false ∧
      ¬ "failed" ∈
        (preprocess_video uploadFailCap uploadFailEffects azureLoc 1 1 freshDB).status_writes ∧
      ∀ v ∈ (preprocess_video uploadFailCap uploadFailEffects azureLoc 1 1 freshDB).db.videos,
        v.preprocessing_status = some "in_progress" := by
  have hrun : preprocess_video uploadFailCap uploadFailEffects azureLoc 1 1 freshDB =
      ⟨set_video_preprocessing_status freshDB 1 "in_progress", ["in_progress"],
       some "StorageError: blob upload failed"⟩ := by
    have harr : arangeQ uploadFailCap.num_frames uploadFailCap.fps = [0] := by
      show arangeQ 1 1 = [0]
      have hone : (⌈(1 : ℚ) / 1⌉).toNat = 1 := by
        rw [show ⌈(1 : ℚ) / 1⌉ = 1 from by rw [Int.ceil_eq_iff]; constructor <;> norm_num]
        rfl
      rw [arangeQ, hone]
      norm_num [arangeFrom]
    unfold preprocess_video
    rw [harr]
    rfl
  refine ⟨rfl, rfl, rfl, rfl, ?_, ?_⟩
  · rw [hrun]
    decide
  · rw [hrun]
    decide

/-- C8: every preprocessing run's first status write is `in_progress`,
and a run in which every sampled frame decodes, encodes and stores
successfully (the detection stage succeeding and only appending rows)
terminates with the video's status set to `success`. -/
theorem preprocess_in_progress_first_success_last
    (cap : VideoCapture) (fio : FrameEffects) (loc : StorageLocation)
    (video_id project_id : Nat) (db : DB) :
    (preprocess_video cap fio loc video_id project_id db).status_writes.head? =
        some "in_progress" ∧
      ((∀ pos ∈ arangeQ cap.num_frames cap.fps, FrameStepOk cap fio loc pos) →
        DetectOnlyAppends fio →
        (preprocess_video cap fio loc video_id project_id db).status_writes =
            ["in_progress", "success"] ∧
          (preprocess_video cap fio loc video_id project_id db).raised = none ∧
          ∀ v ∈ (preprocess_video cap fio loc video_id project_id db).db.videos,
            v.id = video_id → v.preprocessing_status = some "success") := by
  constructor
  · obtain ⟨t, ht⟩ := preprocess_frames_status_extends cap fio loc video_id project_id
      (arangeQ cap.num_frames cap.fps) 0
      (set_video_preprocessing_status db video_id "in_progress") ["in_progress"]
    unfold preprocess_video
    rw [ht]
    rfl
  · intro hok hdet
    obtain ⟨db2, heq, _, _, _⟩ := preprocess_frames_all_ok cap fio loc video_id project_id
      hdet (arangeQ cap.num_frames cap.fps) 0
      (set_video_preprocessing_status db video_id "in_progress") ["in_progress"] hok
    unfold preprocess_video
    rw [heq]
    exact ⟨rfl, rfl, set_video_preprocessing_status_mem db2 video_id "success"⟩

/-- C8 witness: a fully successful two-frame local-mode run. -/
theorem preprocess_in_progress_first_success_last_witness :
    (preprocess_video happyCap happyEffects localLoc 1 1 freshDB).status_writes.head? =
        some "in_progress" ∧
      (preprocess_video happyCap happyEffects localLoc 1 1 freshDB).status_writes =
        ["in_progress", "success"] ∧
      (preprocess_video happyCap happyEffects localLoc 1 1 freshDB).raised = none := by
  obtain ⟨h1, h2⟩ :=
    preprocess_in_progress_first_success_last happyCap happyEffects localLoc 1 1 freshDB
  obtain ⟨ha, hb, _⟩ := h2
    (fun pos _ => ⟨0, rfl, fun hx => absurd hx (by decide), fun _ => rfl⟩)
    (fun img fid d => ⟨[], [], d.next_id, by simp; rfl⟩)
  exact ⟨h1, ha, hb⟩

/-! ### C1 helper lemmas -/

theorem update_boxes_map_id (db : DB) (updated : List BoxUpdate) :
    (update_boxes db updated).boxes.map (fun b => b.id) =
      db.boxes.map (fun b => b.id) := by
  unfold update_boxes
  rw [List.map_map]
  apply List.map_congr_left
  intro b _
  simp only [Function.comp_apply]
  cases h : updated.find? (fun u => u.id = b.id) with
  | none => rfl
  | some u => rfl

theorem mem_box_label_join (db : DB) (video_id : Nat) :
    ∀ r ∈ get_box_vectors_and_labels_by_video_id db video_id,
      r.1 ∈ db.boxes ∧
        db.frames.any (fun f => f.video_id = video_id ∧ f.id = r.1.frame_id) = true := by
  intro r hr
  unfold get_box_vectors_and_labels_by_video_id at hr
  rw [List.mem_filterMap] at hr
  obtain ⟨b, hb, hmap⟩ := hr
  rw [List.mem_filter] at hb
  cases hfind : db.labels.find? (fun l => l.id = b.label_id) with
  | none =>
      rw [hfind] at hmap
      simp at hmap
  | some l =>
      rw [hfind] at hmap
      simp only [Option.map_some'] at hmap
      rw [Option.some_inj] at hmap
      subst hmap
      exact ⟨hb.1, hb.2⟩

theorem mem_unreviewed_boxes (db : DB) (video_id : Nat) :
    ∀ u ∈ unreviewed_boxes_of db video_id,
      u.prediction = true ∧ u ∈ db.boxes ∧
        db.frames.any (fun f => f.video_id = video_id ∧ f.id = u.frame_id) = true := by
  intro u hu
  unfold unreviewed_boxes_of at hu
  rw [collect_box_rows_unreviewed, List.mem_filter] at hu
  obtain ⟨humem, hpred⟩ := hu
  rw [List.mem_map] at humem
  obtain ⟨r, hr, hre⟩ := humem
  obtain ⟨hbmem, hfr⟩ := mem_box_label_join db video_id r hr
  subst hre
  exact ⟨hpred, hbmem, hfr⟩

theorem unreviewed_empty_of_all_confirmed (db : DB) (video_id : Nat)
    (hall : ∀ b ∈ db.boxes,
      db.frames.any (fun f => f.video_id = video_id ∧ f.id = b.frame_id) = true →
      b.prediction = false) :
    unreviewed_boxes_of db video_id = [] := by
  unfold unreviewed_boxes_of
  rw [collect_box_rows_unreviewed, List.filter_eq_nil_iff]
  intro b hb
  rw [List.mem_map] at hb
  obtain ⟨r, hr, hre⟩ := hb
  obtain ⟨hbmem, hfr⟩ := mem_box_label_join db video_id r hr
  subst hre
  rw [hall r.1 hbmem hfr]
  simp

theorem pyDictInsert_mem (m : List (String × Nat)) (k : String) (v : Nat) :
    ∀ q ∈ pyDictInsert m k v, q ∈ m ∨ q = (k, v) := by
  intro q hq
  unfold pyDictInsert at hq
  by_cases h : m.any (fun p => p.1 = k)
  · rw [if_pos h, List.mem_map] at hq
    obtain ⟨p, hp, hpe⟩ := hq
    by_cases h2 : p.1 = k
    · right
      rw [← hpe, if_pos h2]
    · left
      rw [← hpe, if_neg h2]
      exact hp
  · rw [if_neg h] at hq
    rcases List.mem_append.mp hq with h1 | h2
    · exact Or.inl h1
    · right
      simpa using h2

theorem pyDict_mem_subset :
    ∀ (l acc : List (String × Nat)) (q : String × Nat),
      q ∈ l.foldl (fun m p => pyDictInsert m p.1 p.2) acc → q ∈ acc ∨ q ∈ l := by
  intro l
  induction l with
  | nil =>
      intro acc q hq
      exact Or.inl hq
  | cons p rest ih =>
      intro acc q hq
      rw [List.foldl_cons] at hq
      rcases ih _ q hq with h1 | h2
      · rcases pyDictInsert_mem acc p.1 p.2 q h1 with ha | hb
        · exact Or.inl ha
        · right
          rw [hb]
          exact List.mem_cons_self _ _
      · exact Or.inr (List.mem_cons_of_mem _ h2)

theorem pyDictGet_mem (m : List (String × Nat)) (k : String) (v : Nat)
    (h : pyDictGet m k = some v) : (k, v) ∈ m := by
  unfold pyDictGet at h
  cases hf : m.find? (fun p => p.1 = k) with
  | none =>
      rw [hf] at h
      simp at h
  | some q =>
      rw [hf] at h
      simp only [Option.map_some'] at h
      rw [Option.some_inj] at h
      have hk : q.1 = k := by simpa using List.find?_some hf
      rw [← hk, ← h]
      exact List.mem_of_find?_eq_some hf

theorem pyDict_lookup_mem (pairs : List (String × Nat)) (k : String) (v : Nat)
    (h : pyDictGet (pyDict pairs) k = some v) : (k, v) ∈ pairs := by
  rcases pyDict_mem_subset pairs [] (k, v) (pyDictGet_mem _ _ _ h) with h1 | h2
  · simp at h1
  · exact h2

theorem build_new_predicted_boxes_spec (label2id : List (String × Nat)) :
    ∀ (pairs : List (String × BoundingBoxRow)) (nbs : List BoxUpdate),
      build_new_predicted_boxes label2id pairs = .ok nbs →
      ∀ nb ∈ nbs, ∃ lbl u lid, (lbl, u) ∈ pairs ∧
        pyDictGet label2id lbl = some lid ∧
        nb = ⟨u.id, u.x_top_left, u.y_top_left, u.x_bottom_right, u.y_bottom_right,
              u.width, u.height, u.frame_id, lid⟩ := by
  intro pairs
  induction pairs with
  | nil =>
      intro nbs h nb hnb
      unfold build_new_predicted_boxes at h
      rw [Except.ok.injEq] at h
      rw [← h] at hnb
      simp at hnb
  | cons p rest ih =>
      intro nbs h nb hnb
      obtain ⟨lbl, u⟩ := p
      unfold build_new_predicted_boxes at h
      cases hg : pyDictGet label2id lbl with
      | none =>
          rw [hg] at h
          simp at h
      | some lid =>
          rw [hg] at h
          cases hbr : build_new_predicted_boxes label2id rest with
          | error e =>
              rw [hbr] at h
              simp at h
          | ok bs =>
              rw [hbr] at h
              rw [Except.ok.injEq] at h
              rw [← h] at hnb
              rcases List.mem_cons.mp hnb with h1 | h2
              · exact ⟨lbl, u, lid, List.mem_cons_self _ _, hg, h1⟩
              · obtain ⟨lbl2, u2, lid2, hm, hg2, he⟩ := ih bs hbr nb h2
                exact ⟨lbl2, u2, lid2, List.mem_cons_of_mem _ hm, hg2, he⟩

/-- Core of C1, stated on the Trainer block itself: every box row survives
the Trainer with identity, geometry, frame, prediction flag and feature
vector intact; a human-confirmed (`prediction = false`) row is entirely
untouched; a label can change only to one of the project's labels; and if
none of the video's boxes is still predicted, the Trainer writes nothing. -/
theorem run_relabeling_trainer_spec (logits : Nat → Nat → ℚ) (db1 : DB)
    (project_id video_id : Nat)
    (hnodup : (db1.boxes.map (fun b => b.id)).Nodup) :
    (∀ b ∈ db1.boxes,
      ∃ b2 ∈ (run_relabeling_trainer logits db1 project_id video_id).finalDb.boxes,
        b2.id = b.id ∧
        b2.x_top_left = b.x_top_left ∧ b2.y_top_left = b.y_top_left ∧
        b2.x_bottom_right = b.x_bottom_right ∧ b2.y_bottom_right = b.y_bottom_right ∧
        b2.width = b.width ∧ b2.height = b.height ∧
        b2.frame_id = b.frame_id ∧ b2.prediction = b.prediction ∧
        b2.image_features = b.image_features ∧
        (b.prediction = false → b2 = b) ∧
        (b2.label_id = b.label_id ∨
          ∃ l ∈ get_labels_by_project db1 project_id, b2.label_id = l.id)) ∧
    ((∀ b ∈ db1.boxes,
        db1.frames.any (fun f => f.video_id = video_id ∧ f.id = b.frame_id) = true →
        b.prediction = false) →
      (run_relabeling_trainer logits db1 project_id video_id).finalDb = db1 ∧
        (run_relabeling_trainer logits db1 project_id video_id).trainerWrites = []) := by
  unfold run_relabeling_trainer
  dsimp only
  cases hinit : classifier_manager_init (box_vectors_of db1 video_id)
      (box_labels_of db1 video_id)
      ((pyDict ((get_labels_by_project db1 project_id).map
        (fun l => (l.name, l.id)))).map (fun p => p.1)) with
  | error e =>
      refine ⟨?_, fun _ => ⟨rfl, rfl⟩⟩
      intro b hb
      exact ⟨b, hb, rfl, rfl, rfl, rfl, rfl, rfl, rfl, rfl, rfl, rfl,
        fun _ => rfl, Or.inl rfl⟩
  | ok model =>
      dsimp only
      by_cases hlen : 0 < (unreviewed_boxes_of db1 video_id).length
      · rw [if_pos hlen]
        cases hbuild : build_new_predicted_boxes
            (pyDict ((get_labels_by_project db1 project_id).map
              (fun l => (l.name, l.id))))
            ((classifier_predict model logits
              ((unreviewed_boxes_of db1 video_id).map
                (fun b => b.image_features))).zip
              (unreviewed_boxes_of db1 video_id)) with
        | error e =>
            refine ⟨?_, fun _ => ⟨rfl, rfl⟩⟩
            intro b hb
            exact ⟨b, hb, rfl, rfl, rfl, rfl, rfl, rfl, rfl, rfl, rfl, rfl,
              fun _ => rfl, Or.inl rfl⟩
        | ok nbs =>
            constructor
            · intro b hb
              cases hfind : nbs.find? (fun u => u.id = b.id) with
              | none =>
                  have hmem' := List.mem_map_of_mem (fun bb =>
                    match nbs.find? (fun u => u.id = bb.id) with
                    | some u =>
                        { bb with
                          x_top_left := u.x_top_left, y_top_left := u.y_top_left,
                          x_bottom_right := u.x_bottom_right,
                          y_bottom_right := u.y_bottom_right,
                          width := u.width, height := u.height,
                          frame_id := u.frame_id, label_id := u.label_id }
                    | none => bb) hb
                  simp only [hfind] at hmem'
                  exact ⟨b, hmem', rfl, rfl, rfl, rfl, rfl, rfl, rfl, rfl, rfl, rfl,
                    fun _ => rfl, Or.inl rfl⟩
              | some u2 =>
                  have hu2mem : u2 ∈ nbs := List.mem_of_find?_eq_some hfind
                  have hu2id : u2.id = b.id := by
                    simpa using List.find?_some hfind
                  obtain ⟨lbl, u, lid, hpair, hget, he⟩ :=
                    build_new_predicted_boxes_spec _ _ _ hbuild u2 hu2mem
                  have huin : u ∈ unreviewed_boxes_of db1 video_id :=
                    (List.of_mem_zip hpair).2
                  obtain ⟨hupred, humem, _⟩ := mem_unreviewed_boxes db1 video_id u huin
                  subst he
                  have hub : u = b :=
                    List.inj_on_of_nodup_map hnodup humem hb (by simpa using hu2id)
                  subst hub
                  obtain ⟨l, hl, hlide⟩ :
                      ∃ l ∈ get_labels_by_project db1 project_id, l.id = lid := by
                    have hm := pyDict_lookup_mem _ _ _ hget
                    rw [List.mem_map] at hm
                    obtain ⟨l, hl, hle⟩ := hm
                    simp only [Prod.mk.injEq] at hle
                    exact ⟨l, hl, hle.2⟩
                  have hmem' := List.mem_map_of_mem (fun bb =>
                    match nbs.find? (fun u => u.id = bb.id) with
                    | some u =>
                        { bb with
                          x_top_left := u.x_top_left, y_top_left := u.y_top_left,
                          x_bottom_right := u.x_bottom_right,
                          y_bottom_right := u.y_bottom_right,
                          width := u.width, height := u.height,
                          frame_id := u.frame_id, label_id := u.label_id }
                    | none => bb) hb
                  simp only [hfind] at hmem'
                  refine ⟨{ u with label_id := lid }, hmem', rfl, rfl, rfl, rfl, rfl,
                    rfl, rfl, rfl, rfl, rfl, ?_, ?_⟩
                  · intro hf
                    rw [hupred] at hf
                    exact absurd hf (by decide)
                  · right
                    exact ⟨l, hl, by rw [hlide]⟩
            · intro hall
              have hempty := unreviewed_empty_of_all_confirmed db1 video_id hall
              rw [hempty] at hlen
              exact absurd hlen (by simp)
      · rw [if_neg hlen]
        refine ⟨?_, fun _ => ⟨rfl, rfl⟩⟩
        intro b hb
        exact ⟨b, hb, rfl, rfl, rfl, rfl, rfl, rfl, rfl, rfl, rfl, rfl,
          fun _ => rfl, Or.inl rfl⟩

/-- C1: after a correction submission triggers the Relabeling Trainer,
relative to the store in which the submitted corrections are persisted (the
Trainer's input), every box with `prediction == false` is entirely
unchanged; every box with `prediction == true` keeps its id, geometry,
frame, feature vector and prediction flag, and can only have its label
replaced by (the arg-max choice among) the project's existing labels; and if
the video has no `prediction == true` boxes, the Trainer performs no
persistence writes at all. -/
theorem trainer_writes_only_predicted_labels
    (logits : Nat → Nat → ℚ) (db : DB) (project_id video_id : Nat)
    (updated_boxes : List BoxUpdate)
    (hp : (get_project_by_id db project_id).isSome = true)
    (hv : (get_video_by_id db video_id).isSome = true)
    (hnodup : (db.boxes.map (fun b => b.id)).Nodup) :
    (∀ b ∈ (update_boxes db updated_boxes).boxes,
      ∃ b2 ∈ (update_bounding_boxes logits db project_id video_id
          updated_boxes).finalDb.boxes,
        b2.id = b.id ∧
        b2.x_top_left = b.x_top_left ∧ b2.y_top_left = b.y_top_left ∧
        b2.x_bottom_right = b.x_bottom_right ∧ b2.y_bottom_right = b.y_bottom_right ∧
        b2.width = b.width ∧ b2.height = b.height ∧
        b2.frame_id = b.frame_id ∧ b2.prediction = b.prediction ∧
        b2.image_features = b.image_features ∧
        (b.prediction = false → b2 = b) ∧
        (b2.label_id = b.label_id ∨
          ∃ l ∈ get_labels_by_project (update_boxes db updated_boxes) project_id,
            b2.label_id = l.id)) ∧
    ((∀ b ∈ (update_boxes db updated_boxes).boxes,
        (update_boxes db updated_boxes).frames.any
          (fun f => f.video_id = video_id ∧ f.id = b.frame_id) = true →
        b.prediction = false) →
      (update_bounding_boxes logits db project_id video_id
          updated_boxes).finalDb = update_boxes db updated_boxes ∧
        (update_bounding_boxes logits db project_id video_id
          updated_boxes).trainerWrites = []) := by
  obtain ⟨p, hp'⟩ := Option.isSome_iff_exists.mp hp
  obtain ⟨v, hv'⟩ := Option.isSome_iff_exists.mp hv
  have hres : update_bounding_boxes logits db project_id video_id updated_boxes =
      run_relabeling_trainer logits (update_boxes db updated_boxes)
        project_id video_id := by
    unfold update_bounding_boxes
    rw [hp', hv']
  have hnodup1 : ((update_boxes db updated_boxes).boxes.map (fun b => b.id)).Nodup := by
    rw [update_boxes_map_id]
    exact hnodup
  rw [hres]
  exact run_relabeling_trainer_spec logits (update_boxes db updated_boxes)
    project_id video_id hnodup1

/-- C1 witness: on a store with one predicted and one human-confirmed
box, the confirmed box survives the correction request byte-for-byte. -/
theorem trainer_writes_only_predicted_labels_witness :
    ∃ b2 ∈ (update_bounding_boxes preferClassOne mixedDB 1 1 []).finalDb.boxes,
      b2.id = reviewedPersonBox.id ∧ b2 = reviewedPersonBox := by
  obtain ⟨h1, _⟩ := trainer_writes_only_predicted_labels preferClassOne mixedDB 1 1 []
    (by decide) (by decide) (by decide)
  obtain ⟨b2, hmem, hid, _, _, _, _, _, _, _, _, _, hfalse, _⟩ :=
    h1 reviewedPersonBox (by decide)
  exact ⟨b2, hmem, hid, hfalse rfl⟩

end LabelFlicks
